import Mathlib

/-!
Shallow embedding of the shared puzzle-input reading layer (`src/input.rs`)
of the advent-of-code-2021 repository, together with proofs of its
specified properties.

The underlying buffered reader is modelled by the list of items its
`lines()` iterator would yield: each item is `Except IoErr String`,
mirroring `io::Result<String>` (a newline-stripped line, or a read error).
Partial reads (`Input::line`) return the produced value together with the
remaining stream items, mirroring the advancing cursor.
-/

set_option maxHeartbeats 1000000

deriving instance DecidableEq for Except

namespace Aoc2021

/-- Mirror of `io::ErrorKind` (only the kinds this component uses). -/
inductive ErrKind where
  | notFound
  | invalidData
  | other
deriving DecidableEq, Repr

/-- Mirror of `std::num::IntErrorKind`, the error kind inside a
`ParseIntError` as produced by `u32::from_str`. -/
inductive IntErrKind where
  | empty
  | invalidDigit
  | posOverflow
deriving DecidableEq, Repr

/-- Inner value of an `io::Error`: the message of a constructed error
(`io::Error::new(kind, "...")`), a wrapped `ParseIntError`
(`io::Error::new(kind, e)`), or an operating-system read error. -/
inductive ErrPayload where
  | msg (s : String)
  | parseIntErr (k : IntErrKind)
  | osErr (code : Nat)
deriving DecidableEq, Repr

/-- Mirror of `io::Error`: an error kind plus its inner value. -/
structure IoErr where
  kind : ErrKind
  payload : ErrPayload
deriving DecidableEq, Repr

/-- One item of the `BufReader::lines()` stream: `io::Result<String>`. -/
abbrev LineItem := Except IoErr String

/-- The error built by `Input::line` when the stream is exhausted:
`io::Error::new(io::ErrorKind::InvalidData, "Input exhausted")`. -/
def exhausted_err : IoErr := ⟨.invalidData, .msg "Input exhausted"⟩

/-- `io::Error::new(io::ErrorKind::InvalidData, e)` as used to wrap parse
errors in `Input::parsed_lines` and `Input::parse_line`. -/
def invalid_data_err (e : ErrPayload) : IoErr := ⟨.invalidData, e⟩

/-- Helper `is_blank_line` nested in `Input::blocks`:
`line.as_ref().map(|s| s.trim().is_empty()).unwrap_or(false)`. -/
def is_blank_line : LineItem → Bool
  | .ok s => s.trim.isEmpty
  | .error _ => false

/-- Helper `is_not_blank_line` nested in `Input::blocks`. -/
def is_not_blank_line (l : LineItem) : Bool := !is_blank_line l

/-- Itertools `try_collect` into `io::Result<Vec<String>>`: collects the
`Ok` values in order and stops at the first `Err`, returning it. -/
def try_collect {ε α : Type} : List (Except ε α) → Except ε (List α)
  | [] => .ok []
  | .ok a :: rest => (try_collect rest).map (fun as => a :: as)
  | .error e :: _ => .error e

/-- `Input::blocks`: the `batching` adapter over the line stream.  Each
call of the closure skips leading blank lines, takes lines up to the next
blank line (consuming that delimiter), and try-collects them; a non-empty
`Ok` chunk is yielded and iteration continues on the remaining stream,
while an empty chunk or an `Err` ends the iterator (the closure returns
`None`). -/
def blocks (input : List LineItem) : List (Except IoErr (List String)) :=
  match h : try_collect ((input.dropWhile is_blank_line).takeWhile is_not_blank_line) with
  | .ok ls =>
    if hne : ls.isEmpty then [] else
      .ok ls :: blocks (((input.dropWhile is_blank_line).dropWhile is_not_blank_line).drop 1)
  | .error _ => []
termination_by input.length
decreasing_by
  have hchunk : (input.dropWhile is_blank_line).takeWhile is_not_blank_line ≠ [] := by
    intro hc
    rw [hc] at h
    simp only [try_collect] at h
    cases h
    simp at hne
  have h1 : ((input.dropWhile is_blank_line).takeWhile is_not_blank_line).length
      + ((input.dropWhile is_blank_line).dropWhile is_not_blank_line).length
      = (input.dropWhile is_blank_line).length := by
    rw [← List.length_append, List.takeWhile_append_dropWhile]
  have h2 : (input.dropWhile is_blank_line).length ≤ input.length := by
    clear h1 h hchunk hne
    induction input with
    | nil => simp
    | cons a t ih =>
      rw [List.dropWhile_cons]
      split
      · exact Nat.le_succ_of_le ih
      · simp
  have h3 : 1 ≤ ((input.dropWhile is_blank_line).takeWhile is_not_blank_line).length := by
    cases hc : (input.dropWhile is_blank_line).takeWhile is_not_blank_line with
    | nil => exact absurd hc hchunk
    | cons a t => simp
  rw [List.length_drop]
  omega

/-- `Input::line`: `self.reader.by_ref().lines().next().ok_or_else(||
io::Error::new(InvalidData, "Input exhausted"))?` — returns the produced
`io::Result<String>` together with the remaining stream items. -/
def line : List LineItem → Except IoErr String × List LineItem
  | [] => (.error exhausted_err, [])
  | l :: rest => (l, rest)

/-- `Input::lines` (after any partial reads): yields the remaining stream
items unchanged. -/
def lines (input : List LineItem) : List LineItem := input

/-- The per-item conversion `Input::parsed_lines` maps over the stream:
`line.and_then(|s| s.parse().map_err(|e| io::Error::new(InvalidData, e)))`,
for a caller-supplied `FromStr` conversion `p`. -/
def parse_item {T : Type} (p : String → Except ErrPayload T) (l : LineItem) : Except IoErr T :=
  l.bind fun s => (p s).mapError invalid_data_err

/-- `Input::parsed_lines`: `self.lines().map(...)` with the conversion of
`parse_item`. -/
def parsed_lines {T : Type} (p : String → Except ErrPayload T) (input : List LineItem) :
    List (Except IoErr T) :=
  input.map (parse_item p)

/-- `Input::parse_line`:
`self.line()?.parse().map_err(|e| io::Error::new(InvalidData, e))` —
returns the result together with the remaining stream items. -/
def parse_line {T : Type} (p : String → Except ErrPayload T) (input : List LineItem) :
    Except IoErr T × List LineItem :=
  ((line input).1.bind fun s => (p s).mapError invalid_data_err, (line input).2)

/-- One digit step of `u32::from_str`: `to_digit(10)` (else `InvalidDigit`)
then `checked_mul`/`checked_add` against `u32::MAX` (else `PosOverflow`). -/
def u32_step (acc : Nat) (c : Char) : Except IntErrKind Nat :=
  if c.isDigit then
    if acc * 10 + (c.toNat - 48) < 2 ^ 32 then .ok (acc * 10 + (c.toNat - 48))
    else .error .posOverflow
  else .error .invalidDigit

/-- Digit-accumulation loop of `u32::from_str`. -/
def u32_digits : Nat → List Char → Except IntErrKind Nat
  | acc, [] => .ok acc
  | acc, c :: cs =>
    match u32_step acc c with
    | .ok v => u32_digits v cs
    | .error e => .error e

/-- `u32::from_str` (the `FromStr` impl the tests instantiate `parse` at):
empty input is `Empty`; a bare `"+"` is `InvalidDigit`; a leading `'+'` is
stripped; `'-'` is not a sign for an unsigned type and fails as a digit. -/
def u32_from_str (s : String) : Except IntErrKind Nat :=
  match s.data with
  | [] => .error .empty
  | '+' :: [] => .error .invalidDigit
  | '+' :: cs => u32_digits 0 cs
  | cs => u32_digits 0 cs

/-- The `FromStr` conversion for `u32` with its `ParseIntError` embedded
as an `io::Error` payload. -/
def u32_parse (s : String) : Except ErrPayload Nat :=
  (u32_from_str s).mapError ErrPayload.parseIntErr

/-- Lines carried by a yielded block item (an error item carries none). -/
def block_lines : Except IoErr (List String) → List String
  | .ok b => b
  | .error _ => []

/-! Helper lemmas. -/

/-- Dropping a prefix never lengthens a list. -/
theorem length_dropWhile_le {α : Type} (p : α → Bool) (l : List α) :
    (l.dropWhile p).length ≤ l.length := by
  induction l with
  | nil => simp
  | cons a t ih =>
    rw [List.dropWhile_cons]
    split
    · exact Nat.le_succ_of_le ih
    · simp

/-- Concrete evaluation of the blank test on the sample line `"a"`. -/
theorem trim_isEmpty_a : "a".trim.isEmpty = false := by
  simp +decide [String.trim, Substring.trim, String.toSubstring, Substring.takeWhileAux,
    Substring.takeRightWhileAux, String.endPos, String.utf8ByteSize, Substring.toString,
    String.extract, String.isEmpty, String.get, String.prev, String.next]

/-- Concrete evaluation of the blank test on the sample line `"b"`. -/
theorem trim_isEmpty_b : "b".trim.isEmpty = false := by
  simp +decide [String.trim, Substring.trim, String.toSubstring, Substring.takeWhileAux,
    Substring.takeRightWhileAux, String.endPos, String.utf8ByteSize, Substring.toString,
    String.extract, String.isEmpty, String.get, String.prev, String.next]

/-- Concrete evaluation of the blank test on the sample line `"11"`. -/
theorem trim_isEmpty_11 : "11".trim.isEmpty = false := by
  simp +decide [String.trim, Substring.trim, String.toSubstring, Substring.takeWhileAux,
    Substring.takeRightWhileAux, String.endPos, String.utf8ByteSize, Substring.toString,
    String.extract, String.isEmpty, String.get, String.prev, String.next]

/-- Concrete evaluation of the blank test on the sample line `"22"`. -/
theorem trim_isEmpty_22 : "22".trim.isEmpty = false := by
  simp +decide [String.trim, Substring.trim, String.toSubstring, Substring.takeWhileAux,
    Substring.takeRightWhileAux, String.endPos, String.utf8ByteSize, Substring.toString,
    String.extract, String.isEmpty, String.get, String.prev, String.next]

/-- Concrete evaluation of the blank test on the empty line. -/
theorem trim_isEmpty_empty : "".trim.isEmpty = true := by
  simp [String.trim, Substring.trim, String.toSubstring, Substring.takeWhileAux,
    Substring.takeRightWhileAux, String.endPos, String.utf8ByteSize, Substring.toString,
    String.extract, String.isEmpty]

/-- Concrete evaluation of the blank test on the all-whitespace line `" "`. -/
theorem trim_isEmpty_space : " ".trim.isEmpty = true := by
  simp +decide [String.trim, Substring.trim, String.toSubstring, Substring.takeWhileAux,
    Substring.takeRightWhileAux, String.endPos, String.utf8ByteSize, Substring.toString,
    String.extract, String.isEmpty, String.get, String.prev, String.next]

/-- `blocks` on the empty stream yields nothing. -/
theorem blocks_nil : blocks ([] : List LineItem) = [] := by
  rw [blocks.eq_def]
  split
  next ls heq =>
    simp only [List.dropWhile_nil, List.takeWhile_nil, try_collect] at heq
    cases heq
    simp
  next e heq =>
    simp only [List.dropWhile_nil, List.takeWhile_nil, try_collect] at heq
    cases heq

/-- Unfolding `blocks` when the first try-collected chunk is an error:
the iterator ends at once. -/
theorem blocks_eq_nil_of_error {input : List LineItem} {e : IoErr}
    (h : try_collect ((input.dropWhile is_blank_line).takeWhile is_not_blank_line)
      = Except.error e) :
    blocks input = [] := by
  rw [blocks.eq_def]
  split
  next ls heq => rw [h] at heq; cases heq
  next e' heq => rfl

/-- Unfolding `blocks` when the first try-collected chunk is `Ok` but
empty: the iterator ends. -/
theorem blocks_eq_nil_of_ok_nil {input : List LineItem}
    (h : try_collect ((input.dropWhile is_blank_line).takeWhile is_not_blank_line)
      = Except.ok []) :
    blocks input = [] := by
  rw [blocks.eq_def]
  split
  next ls heq => rw [h] at heq; cases heq; simp
  next e' heq => simp [h] at heq

/-- Unfolding `blocks` when the first try-collected chunk is `Ok` and
non-empty: it is yielded and iteration continues past the delimiter. -/
theorem blocks_cons {input : List LineItem} {ls : List String}
    (h : try_collect ((input.dropWhile is_blank_line).takeWhile is_not_blank_line)
      = Except.ok ls) (hne : ls ≠ []) :
    blocks input
      = Except.ok ls
        :: blocks (((input.dropWhile is_blank_line).dropWhile is_not_blank_line).drop 1) := by
  rw [blocks.eq_def]
  split
  next ls' heq =>
    rw [h] at heq
    cases heq
    simp [hne]
  next e heq => rw [h] at heq; cases heq

/-- Dropping blank lines commutes with viewing pure lines as stream items. -/
theorem dropWhile_blank_map_ok (ls : List String) :
    ((ls.map Except.ok : List LineItem).dropWhile is_blank_line)
      = (ls.dropWhile fun s => s.trim.isEmpty).map Except.ok := by
  rw [List.dropWhile_map]
  rfl

/-- Taking non-blank lines commutes with viewing pure lines as stream items. -/
theorem takeWhile_not_blank_map_ok (ls : List String) :
    ((ls.map Except.ok : List LineItem).takeWhile is_not_blank_line)
      = (ls.takeWhile fun s => !s.trim.isEmpty).map Except.ok := by
  rw [List.takeWhile_map]
  rfl

/-- Dropping non-blank lines commutes with viewing pure lines as stream items. -/
theorem dropWhile_not_blank_map_ok (ls : List String) :
    ((ls.map Except.ok : List LineItem).dropWhile is_not_blank_line)
      = (ls.dropWhile fun s => !s.trim.isEmpty).map Except.ok := by
  rw [List.dropWhile_map]
  rfl

/-- `try_collect` over error-free items succeeds with all values. -/
theorem try_collect_map_ok {ε α : Type} (ls : List α) :
    try_collect (ls.map (Except.ok : α → Except ε α)) = Except.ok ls := by
  induction ls with
  | nil => rfl
  | cons a t ih => simp [try_collect, ih, Except.map]

/-- `try_collect` aborts at the first error, returning it. -/
theorem try_collect_append_error {ε α : Type} (pre : List α) (e : ε)
    (post : List (Except ε α)) :
    try_collect (pre.map Except.ok ++ Except.error e :: post) = Except.error e := by
  induction pre with
  | nil => rfl
  | cons a t ih => simp [try_collect, ih, Except.map]

/-- On an error-free stream, an empty taken chunk forces the whole
remainder after dropping blanks to be empty. -/
theorem dropWhile_blank_eq_nil_of_takeWhile_nil {ls : List String}
    (hc : (ls.dropWhile fun s => s.trim.isEmpty).takeWhile (fun s => !s.trim.isEmpty) = []) :
    ls.dropWhile (fun s => s.trim.isEmpty) = [] := by
  cases hA : ls.dropWhile (fun s => s.trim.isEmpty) with
  | nil => rfl
  | cons a t =>
    exfalso
    have hna : a.trim.isEmpty = false := by
      have hw : ls.dropWhile (fun s => s.trim.isEmpty) ≠ [] := by simp [hA]
      have := List.head_dropWhile_not (fun s => s.trim.isEmpty) ls hw
      simpa [hA] using this
    rw [hA, List.takeWhile_cons_of_pos (by simp [hna])] at hc
    cases hc

/-- Every line skipped by the leading `dropWhile` is blank, so the blank
filter of the original list is untouched by it. -/
theorem filter_not_blank_dropWhile (ls : List String) :
    ls.filter (fun s => !s.trim.isEmpty)
      = (ls.dropWhile fun s => s.trim.isEmpty).filter (fun s => !s.trim.isEmpty) := by
  conv_lhs =>
    rw [← List.takeWhile_append_dropWhile (p := fun s => s.trim.isEmpty) (l := ls)]
  rw [List.filter_append]
  have h0 : (ls.takeWhile fun s => s.trim.isEmpty).filter (fun s => !s.trim.isEmpty) = [] := by
    rw [List.filter_eq_nil_iff]
    intro a ha
    have := List.mem_takeWhile_imp ha
    simp_all
  rw [h0, List.nil_append]

/-- Generalized losslessness of block segmentation on error-free streams,
by strong induction on the number of lines. -/
theorem blocks_flatten_aux :
    ∀ (n : Nat) (ls : List String), ls.length ≤ n →
      ((blocks (ls.map Except.ok)).map block_lines).flatten
        = ls.filter (fun s => !s.trim.isEmpty) := by
  intro n
  induction n with
  | zero =>
    intro ls hlen
    have h0 : ls = [] := List.eq_nil_of_length_eq_zero (Nat.le_zero.mp hlen)
    subst h0
    simp [blocks_nil]
  | succ n ih =>
    intro ls hlen
    have hTC : try_collect (((ls.map Except.ok : List LineItem).dropWhile
          is_blank_line).takeWhile is_not_blank_line)
        = Except.ok
            ((ls.dropWhile fun s => s.trim.isEmpty).takeWhile fun s => !s.trim.isEmpty) := by
      rw [dropWhile_blank_map_ok, takeWhile_not_blank_map_ok, try_collect_map_ok]
    cases hc : (ls.dropWhile fun s => s.trim.isEmpty).takeWhile (fun s => !s.trim.isEmpty) with
    | nil =>
      rw [hc] at hTC
      rw [blocks_eq_nil_of_ok_nil hTC]
      have hA : ls.dropWhile (fun s => s.trim.isEmpty) = [] :=
        dropWhile_blank_eq_nil_of_takeWhile_nil hc
      rw [filter_not_blank_dropWhile, hA]
      simp
    | cons c cs =>
      rw [hc] at hTC
      have hcons := blocks_cons hTC (by simp)
      have hrest : (((ls.map Except.ok : List LineItem).dropWhile is_blank_line).dropWhile
            is_not_blank_line).drop 1
          = (((ls.dropWhile fun s => s.trim.isEmpty).dropWhile
              fun s => !s.trim.isEmpty).drop 1).map Except.ok := by
        rw [dropWhile_blank_map_ok, dropWhile_not_blank_map_ok, List.map_drop]
      rw [hrest] at hcons
      rw [hcons]
      have hlen2 : (((ls.dropWhile fun s => s.trim.isEmpty).dropWhile
            fun s => !s.trim.isEmpty).drop 1).length ≤ n := by
        have h1 : ((ls.dropWhile fun s => s.trim.isEmpty).takeWhile
              fun s => !s.trim.isEmpty).length
            + ((ls.dropWhile fun s => s.trim.isEmpty).dropWhile
              fun s => !s.trim.isEmpty).length
            = (ls.dropWhile fun s => s.trim.isEmpty).length := by
          rw [← List.length_append, List.takeWhile_append_dropWhile]
        have h2 : (ls.dropWhile fun s => s.trim.isEmpty).length ≤ ls.length :=
          length_dropWhile_le _ _
        rw [hc] at h1
        rw [List.length_drop]
        simp only [List.length_cons] at h1
        omega
      simp only [List.map_cons, List.flatten_cons, block_lines]
      rw [ih _ hlen2]
      conv_rhs => rw [filter_not_blank_dropWhile ls]
      conv_rhs =>
        rw [← List.takeWhile_append_dropWhile (p := fun s => !s.trim.isEmpty)
          (l := ls.dropWhile fun s => s.trim.isEmpty)]
      rw [List.filter_append, hc]
      have hCfull : (c :: cs).filter (fun s => !s.trim.isEmpty) = c :: cs := by
        rw [List.filter_eq_self]
        intro a ha
        rw [← hc] at ha
        exact List.mem_takeWhile_imp (p := fun s : String => !s.trim.isEmpty) ha
      rw [hCfull]
      have hA2 : ((ls.dropWhile fun s => s.trim.isEmpty).dropWhile
            fun s => !s.trim.isEmpty).filter (fun s => !s.trim.isEmpty)
          = (((ls.dropWhile fun s => s.trim.isEmpty).dropWhile
            fun s => !s.trim.isEmpty).drop 1).filter (fun s => !s.trim.isEmpty) := by
        cases hA2 : (ls.dropWhile fun s => s.trim.isEmpty).dropWhile
            fun s => !s.trim.isEmpty with
        | nil => rfl
        | cons a t =>
          have hqa := List.head?_dropWhile_not (fun s => !s.trim.isEmpty)
            (ls.dropWhile fun s => s.trim.isEmpty)
          rw [hA2] at hqa
          simp only [List.head?_cons] at hqa
          simp [List.filter_cons, hqa]
      rw [hA2]

/-- A successful `try_collect` of a non-empty item list is non-empty. -/
theorem try_collect_ok_ne_nil {ε α : Type} {l : List (Except ε α)} {ls : List α}
    (h : try_collect l = Except.ok ls) (hne : l ≠ []) : ls ≠ [] := by
  cases l with
  | nil => exact absurd rfl hne
  | cons a t =>
    cases a with
    | ok v =>
      simp only [try_collect] at h
      cases htc : try_collect t with
      | ok ts =>
        rw [htc] at h
        simp only [Except.map] at h
        cases h
        simp
      | error e => rw [htc] at h; simp [Except.map] at h
    | error e => simp [try_collect] at h

/-- A stream of blank lines only produces no block. -/
theorem blocks_map_ok_all_blank (ls : List String)
    (h : ∀ s ∈ ls, s.trim.isEmpty = true) :
    blocks (ls.map Except.ok) = [] := by
  have hdrop : ls.dropWhile (fun s => s.trim.isEmpty) = [] :=
    List.dropWhile_eq_nil_iff.mpr fun x hx => by simp [h x hx]
  have hTC : try_collect (((ls.map Except.ok : List LineItem).dropWhile
        is_blank_line).takeWhile is_not_blank_line) = Except.ok [] := by
    rw [dropWhile_blank_map_ok, hdrop]
    rfl
  exact blocks_eq_nil_of_ok_nil hTC

/-- Every successfully yielded block of `blocks` is non-empty. -/
theorem blocks_ok_mem_ne_nil :
    ∀ (input : List LineItem) (b : List String),
      Except.ok b ∈ blocks input → b ≠ [] := by
  intro input
  induction input using blocks.induct with
  | case1 x ls h1 h2 =>
    intro b hb
    rw [List.isEmpty_iff] at h2
    subst h2
    rw [blocks_eq_nil_of_ok_nil h1] at hb
    cases hb
  | case2 x ls h1 h2 ih =>
    intro b hb
    rw [blocks_cons h1 (by simpa [List.isEmpty_iff] using h2)] at hb
    rcases List.mem_cons.mp hb with hb | hb
    · cases hb
      simpa [List.isEmpty_iff] using h2
    · exact ih b hb
  | case3 x e h1 =>
    intro b hb
    rw [blocks_eq_nil_of_error h1] at hb
    cases hb

/-- Items obtained from mapping pure blank lines are all blank. -/
theorem blank_map_ok_all {post : List String}
    (h : ∀ s ∈ post, s.trim.isEmpty = true) :
    ∀ l ∈ (post.map Except.ok : List LineItem), is_blank_line l = true := by
  intro l hl
  simp only [List.mem_map] at hl
  obtain ⟨s, hs, rfl⟩ := hl
  simpa [is_blank_line] using h s hs

/-- Taking non-blank lines from a blank-only mapped run takes nothing. -/
theorem takeWhile_not_blank_of_all_blank {post : List String}
    (h : ∀ s ∈ post, s.trim.isEmpty = true) :
    (post.map Except.ok : List LineItem).takeWhile is_not_blank_line = [] := by
  cases hp : post with
  | nil => rfl
  | cons a t =>
    have ha : is_blank_line (Except.ok a) = true := by
      simpa [is_blank_line] using h a (by simp [hp])
    simp only [List.map_cons]
    rw [List.takeWhile_cons_of_neg]
    simp [is_not_blank_line, ha]

/-- Dropping non-blank lines from a blank-only mapped run drops nothing. -/
theorem dropWhile_not_blank_of_all_blank {post : List String}
    (h : ∀ s ∈ post, s.trim.isEmpty = true) :
    (post.map Except.ok : List LineItem).dropWhile is_not_blank_line
      = post.map Except.ok := by
  cases hp : post with
  | nil => rfl
  | cons a t =>
    have ha : is_blank_line (Except.ok a) = true := by
      simpa [is_blank_line] using h a (by simp [hp])
    simp only [List.map_cons]
    rw [List.dropWhile_cons_of_neg]
    simp [is_not_blank_line, ha]

/-- A blank run prepended to any stream does not change the yielded
blocks: the leading blanks are skipped wholesale. -/
theorem blocks_blank_left (pre : List String) (input : List LineItem)
    (h : ∀ s ∈ pre, s.trim.isEmpty = true) :
    blocks (pre.map Except.ok ++ input) = blocks input := by
  have hd : (pre.map Except.ok ++ input).dropWhile is_blank_line
      = input.dropWhile is_blank_line :=
    List.dropWhile_append_of_pos (blank_map_ok_all h)
  cases htc : try_collect ((input.dropWhile is_blank_line).takeWhile is_not_blank_line) with
  | ok ls =>
    cases hls : ls with
    | nil =>
      rw [blocks_eq_nil_of_ok_nil (by rw [hd]; rw [hls] at htc; exact htc),
        blocks_eq_nil_of_ok_nil (hls ▸ htc)]
    | cons c cs =>
      rw [blocks_cons (by rw [hd]; exact htc) (by simp [hls]),
        blocks_cons htc (by simp [hls]), hd]
  | error e =>
    rw [blocks_eq_nil_of_error (by rw [hd]; exact htc),
      blocks_eq_nil_of_error htc]

/-- The chunk taken for the next block is unchanged by a trailing blank
run: the take stops at the first blank line or at stream end. -/
theorem takeWhile_chunk_append_blank (input : List LineItem) {post : List String}
    (h : ∀ s ∈ post, s.trim.isEmpty = true) :
    ((input ++ post.map Except.ok).dropWhile is_blank_line).takeWhile is_not_blank_line
      = (input.dropWhile is_blank_line).takeWhile is_not_blank_line := by
  cases hD : input.dropWhile is_blank_line with
  | nil =>
    have hemp : (input.dropWhile is_blank_line).isEmpty = true := by simp [hD]
    rw [List.dropWhile_append, hemp, if_pos rfl,
      List.dropWhile_eq_nil_iff.mpr fun l hl => by simpa using blank_map_ok_all h l hl]
  | cons d ds =>
    have hemp : (input.dropWhile is_blank_line).isEmpty = false := by simp [hD]
    rw [List.dropWhile_append, hemp, if_neg (by simp), ← hD]
    cases hDW : (input.dropWhile is_blank_line).dropWhile is_not_blank_line with
    | nil =>
      have hall : ∀ l ∈ input.dropWhile is_blank_line, is_not_blank_line l = true :=
        List.dropWhile_eq_nil_iff.mp hDW
      rw [List.takeWhile_append_of_pos hall,
        takeWhile_not_blank_of_all_blank h, List.append_nil,
        List.takeWhile_eq_self_iff.mpr hall]
    | cons d2 ds2 =>
      rw [List.takeWhile_append]
      have hlt : ((input.dropWhile is_blank_line).takeWhile is_not_blank_line).length
          ≠ (input.dropWhile is_blank_line).length := by
        have h1 : ((input.dropWhile is_blank_line).takeWhile is_not_blank_line).length
            + ((input.dropWhile is_blank_line).dropWhile is_not_blank_line).length
            = (input.dropWhile is_blank_line).length := by
          rw [← List.length_append, List.takeWhile_append_dropWhile]
        rw [hDW] at h1
        simp only [List.length_cons] at h1
        omega
      rw [if_neg hlt]

/-- A blank run appended to any stream does not change the yielded
blocks. -/
theorem blocks_blank_right :
    ∀ (input : List LineItem) (post : List String),
      (∀ s ∈ post, s.trim.isEmpty = true) →
      blocks (input ++ post.map Except.ok) = blocks input := by
  intro input
  induction input using blocks.induct with
  | case1 x ls h1 h2 =>
    intro post h
    rw [List.isEmpty_iff] at h2
    subst h2
    rw [blocks_eq_nil_of_ok_nil h1, blocks_eq_nil_of_ok_nil]
    rw [takeWhile_chunk_append_blank x h]
    exact h1
  | case2 x ls h1 h2 ih =>
    intro post h
    have hne : ls ≠ [] := by simpa [List.isEmpty_iff] using h2
    have hD : x.dropWhile is_blank_line ≠ [] := by
      intro hnil
      rw [hnil] at h1
      simp only [List.takeWhile_nil, try_collect] at h1
      cases h1
      exact hne rfl
    rw [blocks_cons h1 hne,
      blocks_cons (by rw [takeWhile_chunk_append_blank x h]; exact h1) hne]
    have hDapp : (x ++ post.map Except.ok).dropWhile is_blank_line
        = x.dropWhile is_blank_line ++ post.map Except.ok := by
      rw [List.dropWhile_append]
      rw [if_neg (by simpa [List.isEmpty_iff] using hD)]
    rw [hDapp]
    cases hDW : (x.dropWhile is_blank_line).dropWhile is_not_blank_line with
    | nil =>
      have hall : ∀ l ∈ x.dropWhile is_blank_line, is_not_blank_line l = true :=
        List.dropWhile_eq_nil_iff.mp hDW
      rw [List.dropWhile_append_of_pos hall,
        dropWhile_not_blank_of_all_blank h, ← List.map_drop,
        blocks_map_ok_all_blank _ (fun s hs => h s (List.mem_of_mem_drop hs))]
      simp [blocks_nil]
    | cons d2 ds2 =>
      have hemp2 : ((x.dropWhile is_blank_line).dropWhile is_not_blank_line).isEmpty
          = false := by simp [hDW]
      rw [List.dropWhile_append, hemp2, if_neg (by simp), hDW]
      simp only [List.cons_append, List.drop_succ_cons, List.drop_zero]
      rw [hDW] at ih
      simp only [List.drop_succ_cons, List.drop_zero] at ih
      rw [ih post h]
  | case3 x e h1 =>
    intro post h
    rw [blocks_eq_nil_of_error h1, blocks_eq_nil_of_error]
    rw [takeWhile_chunk_append_blank x h]
    exact h1

/-- A stream of non-blank lines forms exactly one block. -/
theorem blocks_of_no_blank (ls : List String) (h1 : ls ≠ [])
    (h2 : ∀ s ∈ ls, s.trim.isEmpty = false) :
    blocks (ls.map Except.ok) = [Except.ok ls] := by
  have hdrop : ls.dropWhile (fun s => s.trim.isEmpty) = ls := by
    cases ls with
    | nil => rfl
    | cons a t =>
      rw [List.dropWhile_cons_of_neg]
      simp [h2 a (List.mem_cons_self a t)]
  have htake : ls.takeWhile (fun s => !s.trim.isEmpty) = ls :=
    List.takeWhile_eq_self_iff.mpr fun x hx => by simp [h2 x hx]
  have hTC : try_collect (((ls.map Except.ok : List LineItem).dropWhile
        is_blank_line).takeWhile is_not_blank_line) = Except.ok ls := by
    rw [dropWhile_blank_map_ok, hdrop, takeWhile_not_blank_map_ok, htake,
      try_collect_map_ok]
  have hrest : ((ls.map Except.ok : List LineItem).dropWhile is_blank_line).dropWhile
        is_not_blank_line = [] := by
    rw [dropWhile_blank_map_ok, hdrop, dropWhile_not_blank_map_ok,
      List.dropWhile_eq_nil_iff.mpr fun x hx => by simp [h2 x hx]]
    rfl
  rw [blocks_cons hTC h1, hrest]
  simp [blocks_nil]

/-- Concrete evaluation of `blocks` on the one-line stream `"11"`. -/
theorem blocks_single11 : blocks [Except.ok "11"] = [Except.ok ["11"]] := by
  have h := blocks_of_no_blank ["11"] (by simp) (by simp [trim_isEmpty_11])
  simpa using h

/-! The claims. -/

/-- C1: block segmentation is lossless and order-preserving: for every
input line sequence, concatenating the lines of all blocks yielded by
`blocks` (in yield order) equals the subsequence of non-blank lines of the
input in original order, where a line is blank iff it is empty after
trimming whitespace. -/
theorem blocks_lossless (ls : List String) :
    ((blocks (ls.map Except.ok)).map block_lines).flatten
      = ls.filter (fun s => !s.trim.isEmpty) :=
  blocks_flatten_aux ls.length ls (Nat.le_refl _)

/-- C2 counterexample: on a stream whose second item is a read error,
`blocks` yields nothing at all: the `IoError` is not yielded to the caller
(it is suppressed, and the partially collected block is discarded). -/
theorem blocks_error_not_yielded_cex :
    blocks [Except.ok "a", Except.error ⟨ErrKind.other, ErrPayload.osErr 5⟩, Except.ok "b"]
        = []
      ∧ Except.error (⟨ErrKind.other, ErrPayload.osErr 5⟩ : IoErr)
          ∉ blocks [Except.ok "a", Except.error ⟨ErrKind.other, ErrPayload.osErr 5⟩,
              Except.ok "b"] := by
  have h : blocks [Except.ok "a",
      Except.error (⟨ErrKind.other, ErrPayload.osErr 5⟩ : IoErr), Except.ok "b"] = [] := by
    apply blocks_eq_nil_of_error (e := ⟨ErrKind.other, ErrPayload.osErr 5⟩)
    simp [is_blank_line, is_not_blank_line, try_collect, trim_isEmpty_a, trim_isEmpty_b,
      Except.map]
  exact ⟨h, by simp [h]⟩

/-- C2 amended: `blocks` never yields an error item — an underlying read
error makes the batching closure return `None` (the `_ => None` arm),
ending the iterator silently instead of propagating the error. -/
theorem blocks_never_yields_error (input : List LineItem) :
    (blocks input).all Except.isOk = true := by
  induction input using blocks.induct with
  | case1 x ls h1 h2 =>
    rw [List.isEmpty_iff] at h2
    subst h2
    rw [blocks_eq_nil_of_ok_nil h1]
    rfl
  | case2 x ls h1 h2 ih =>
    rw [blocks_cons h1 (by simpa [List.isEmpty_iff] using h2)]
    simpa [Except.isOk, Except.toBool] using ih
  | case3 x e h1 =>
    rw [blocks_eq_nil_of_error h1]
    rfl

/-- C3: reading one line and then the remaining lines yields the same
total sequence as reading all lines of a fresh source over the same input,
split after the first element: no line is skipped or duplicated. -/
theorem line_then_lines_split (input : List LineItem) (h : input ≠ []) :
    (line input).1 :: lines (line input).2 = lines input
      ∧ (line input).2 = input.drop 1 := by
  cases input with
  | nil => exact absurd rfl h
  | cons l rest => exact ⟨rfl, rfl⟩

/-- Witness for the cursor-composition theorem on a two-line stream. -/
theorem line_then_lines_split_witness :
    (line [Except.ok "11", Except.ok "22"]).1
        :: lines (line [Except.ok "11", Except.ok "22"]).2
      = lines [Except.ok "11", Except.ok "22"]
      ∧ (line [Except.ok "11", Except.ok "22"]).2
        = [Except.ok "11", Except.ok "22"].drop 1 :=
  line_then_lines_split [Except.ok "11", Except.ok "22"] (by simp)

/-- C4: a stream of N ≥ 1 lines none of which is blank yields exactly one
block containing all N lines in original order. -/
theorem blocks_single_block (ls : List String) (h1 : ls ≠ [])
    (h2 : ∀ s ∈ ls, s.trim.isEmpty = false) :
    blocks (ls.map Except.ok) = [Except.ok ls] :=
  blocks_of_no_blank ls h1 h2

/-- Witness for the single-block theorem at the two-line file `11`, `22`. -/
theorem blocks_single_block_witness :
    blocks (["11", "22"].map Except.ok) = [Except.ok ["11", "22"]] :=
  blocks_single_block ["11", "22"] (by simp)
    (by simp [trim_isEmpty_11, trim_isEmpty_22])

/-- C5: a file consisting solely of blank lines (including the empty file)
yields zero blocks; more generally a leading or a trailing run of blank
lines yields zero blocks, and an empty block is never yielded. -/
theorem blocks_blank_only (ls pre post : List String) (input : List LineItem)
    (hls : ∀ s ∈ ls, s.trim.isEmpty = true)
    (hpre : ∀ s ∈ pre, s.trim.isEmpty = true)
    (hpost : ∀ s ∈ post, s.trim.isEmpty = true) :
    blocks (ls.map Except.ok) = []
      ∧ blocks (pre.map Except.ok ++ input) = blocks input
      ∧ blocks (input ++ post.map Except.ok) = blocks input
      ∧ Except.ok [] ∉ blocks input :=
  ⟨blocks_map_ok_all_blank ls hls, blocks_blank_left pre input hpre,
    blocks_blank_right input post hpost,
    fun hmem => blocks_ok_mem_ne_nil input [] hmem rfl⟩

/-- Witness for the blank-run theorem at concrete blank runs. -/
theorem blocks_blank_only_witness :
    blocks (["", " "].map Except.ok) = []
      ∧ blocks ([" "].map Except.ok ++ [Except.ok "a"]) = blocks [Except.ok "a"]
      ∧ blocks ([Except.ok "a"] ++ [""].map Except.ok) = blocks [Except.ok "a"]
      ∧ Except.ok [] ∉ blocks [Except.ok "a"] :=
  blocks_blank_only ["", " "] [" "] [""] [Except.ok "a"]
    (by simp [trim_isEmpty_empty, trim_isEmpty_space])
    (by simp [trim_isEmpty_space])
    (by simp [trim_isEmpty_empty])

/-- C6: `line` advances the cursor by exactly one item without consuming
the rest of the stream, and produces the constructed `Input exhausted`
error iff no line remains (for streams whose own read errors are not the
exhausted sentinel value). -/
theorem line_advances_one (input : List LineItem)
    (h : Except.error exhausted_err ∉ input) :
    (line input).2 = input.drop 1
      ∧ ((line input).1 = Except.error exhausted_err ↔ input = []) := by
  cases input with
  | nil => exact ⟨rfl, by simp [line]⟩
  | cons l rest =>
    refine ⟨rfl, ⟨fun hl => ?_, fun hc => by cases hc⟩⟩
    have hl' : l = Except.error exhausted_err := hl
    subst hl'
    exact absurd (List.mem_cons_self _ _) h

/-- Witness for the one-line-advance theorem on a one-line stream. -/
theorem line_advances_one_witness :
    (line [Except.ok "11"]).2 = [Except.ok "11"].drop 1
      ∧ ((line [Except.ok "11"]).1 = Except.error exhausted_err
          ↔ ([Except.ok "11"] : List LineItem) = []) :=
  line_advances_one [Except.ok "11"] (by decide)

/-- C7 counterexample: two distinct invalid lines produce the very same
wrapped parse-error value, so the error value does not identify the
offending input text. -/
theorem parse_error_not_identifying_cex :
    (parse_line u32_parse [Except.ok "ab"]).1 = (parse_line u32_parse [Except.ok "cd"]).1
      ∧ "ab" ≠ "cd"
      ∧ (parse_line u32_parse [Except.ok "ab"]).1
        = Except.error (invalid_data_err (ErrPayload.parseIntErr IntErrKind.invalidDigit)) := by
  decide

/-- C7 amended: parsing a line into `u32` with invalid text fails with an
`InvalidData`-wrapped `ParseIntError` that carries only the failure kind
(not the offending text); valid text returns the exact numeric value, and
in particular `"22"` parses to `22`. -/
theorem parse_line_typed (s : String) :
    (∀ k, u32_from_str s = Except.error k →
        (parse_line u32_parse [Except.ok s]).1
          = Except.error (invalid_data_err (ErrPayload.parseIntErr k)))
      ∧ (∀ v, u32_from_str s = Except.ok v →
        (parse_line u32_parse [Except.ok s]).1 = Except.ok v)
      ∧ (parse_line u32_parse [Except.ok "22"]).1 = Except.ok 22 := by
  refine ⟨fun k hk => ?_, fun v hv => ?_, by decide⟩
  · simp [parse_line, line, u32_parse, hk, Except.bind, Except.mapError, invalid_data_err]
  · simp [parse_line, line, u32_parse, hv, Except.bind, Except.mapError]

/-- Witness for the typed-parsing theorem at an invalid and a valid line. -/
theorem parse_line_typed_witness :
    (parse_line u32_parse [Except.ok "ab"]).1
        = Except.error (invalid_data_err (ErrPayload.parseIntErr IntErrKind.invalidDigit))
      ∧ (parse_line u32_parse [Except.ok "22"]).1 = Except.ok 22 :=
  ⟨(parse_line_typed "ab").1 IntErrKind.invalidDigit (by decide),
    (parse_line_typed "22").2.1 22 (by decide)⟩

/-- C8: `parsed_lines` applies the conversion independently to every item:
the output has the same length and the item at each index is determined by
the input item at that index alone, so a failure at position `i` does not
abort later items; only a strict `try_collect`-style collection aborts at
the first error. -/
theorem parsed_lines_no_abort {T : Type} (p : String → Except ErrPayload T)
    (input : List LineItem) :
    (parsed_lines p input).length = input.length
      ∧ (∀ i : Nat, (parsed_lines p input)[i]? = (input[i]?).map (parse_item p))
      ∧ (∀ (pre : List T) (e : IoErr) (post : List (Except IoErr T)),
          try_collect (pre.map Except.ok ++ Except.error e :: post) = Except.error e) :=
  ⟨by simp [parsed_lines], fun i => by simp [parsed_lines],
    fun pre e post => try_collect_append_error pre e post⟩

/-- C9: every successful block yielded by `blocks` is non-empty,
regardless of how many or where blank lines (or errors) occur. -/
theorem blocks_yields_no_empty_block (input : List LineItem) (b : List String)
    (hmem : Except.ok b ∈ blocks input) : b ≠ [] :=
  blocks_ok_mem_ne_nil input b hmem

/-- Witness for the non-empty-block theorem on a one-line stream. -/
theorem blocks_yields_no_empty_block_witness : (["11"] : List String) ≠ [] :=
  blocks_yields_no_empty_block [Except.ok "11"] ["11"]
    (by rw [blocks_single11]; exact List.mem_singleton.mpr rfl)

/-- C10: the exhausted-input error constructed by `line` and the wrapped
parse error produced by `parse_line` carry the same `io::ErrorKind`
(`InvalidData`), so a caller cannot distinguish them by kind alone. -/
theorem exhausted_parse_same_kind (s : String) (e1 e2 : IoErr)
    (h1 : (line []).1 = Except.error e1)
    (h2 : (parse_line u32_parse [Except.ok s]).1 = Except.error e2) :
    e1.kind = e2.kind ∧ e1.kind = ErrKind.invalidData := by
  have he1 : e1 = exhausted_err := by
    simp only [line] at h1
    cases h1
    rfl
  subst he1
  cases hu : u32_from_str s with
  | ok v =>
    simp [parse_line, line, u32_parse, hu, Except.bind, Except.mapError] at h2
  | error k =>
    simp only [parse_line, line, u32_parse, hu, Except.bind, Except.mapError] at h2
    cases h2
    exact ⟨rfl, rfl⟩

/-- Witness for the same-error-kind theorem at the invalid line `"ab"`. -/
theorem exhausted_parse_same_kind_witness :
    exhausted_err.kind
        = (⟨ErrKind.invalidData, ErrPayload.parseIntErr IntErrKind.invalidDigit⟩ : IoErr).kind
      ∧ exhausted_err.kind = ErrKind.invalidData :=
  exhausted_parse_same_kind "ab" exhausted_err
    ⟨ErrKind.invalidData, ErrPayload.parseIntErr IntErrKind.invalidDigit⟩
    (by decide) (by decide)

end Aoc2021
